import Mathlib

/-!
Verification development for the pif-dft parsers (src/dfttopif/parsers/vasp.py
and src/dfttopif/parsers/wien2k.py).

Files are modelled as lists of lines (`List String`), floating-point values as
rationals (`ℚ`), and Python exceptions by the `PyResult` sum type below, whose
`exn` constructor carries an informal message.  Directories are modelled as the
ordered listing `os.listdir` would produce, paired with each file's lines.
Third-party sub-parsers (dftparse's OutcarParser, EigenvalParser, ScfParser and
so on) are external black boxes and are passed in as function parameters.
-/

set_option autoImplicit false

universe u v

/-- Result of running a Python function: a value, or a raised exception. -/
inductive PyResult (α : Type u) where
  | ok : α → PyResult α
  | exn : String → PyResult α
deriving DecidableEq, Repr

/-! ## Python string and list primitives -/

/-- Auxiliary for `pyContains`: does the pattern occur in the character list? -/
def containsCharsAux : List Char → List Char → Bool
  | _, [] => true
  | [], _ :: _ => false
  | c :: rest, p :: ps =>
    (List.isPrefixOf (p :: ps) (c :: rest)) || containsCharsAux rest (p :: ps)

/-- Python's substring test `sub in s`. -/
def pyContains (s sub : String) : Bool :=
  containsCharsAux s.toList sub.toList

/-- Auxiliary for `pySplit`: accumulate the current word (reversed). -/
def splitWSAux : List Char → List Char → List (List Char)
  | [], acc => if acc.isEmpty then [] else [acc.reverse]
  | c :: rest, acc =>
    if c.isWhitespace then
      if acc.isEmpty then splitWSAux rest [] else acc.reverse :: splitWSAux rest []
    else splitWSAux rest (c :: acc)

/-- Python's `str.split()` with no argument: split on runs of whitespace,
dropping empty words. -/
def pySplit (s : String) : List String :=
  (splitWSAux s.toList []).map (fun cs => String.mk cs)

/-- Numeric value of a decimal digit character. -/
def digitVal (c : Char) : Option ℕ :=
  if c.isDigit then some (c.toNat - 48) else none

/-- Parse a nonempty all-digit character list as a natural number. -/
def parseNatDigits (cs : List Char) : Option ℕ :=
  if cs.isEmpty then none
  else cs.foldlM (fun acc c => (digitVal c).map (fun d => acc * 10 + d)) 0

/-- Model of Python's `int(str)`: optional sign followed by digits. -/
def pyIntParse (s : String) : Option ℤ :=
  match s.toList with
  | '-' :: rest => (parseNatDigits rest).map (fun n => -(n : ℤ))
  | '+' :: rest => (parseNatDigits rest).map (fun n => (n : ℤ))
  | cs => (parseNatDigits cs).map (fun n => (n : ℤ))

/-!
Rational arithmetic used inside the modelled Python code.  The library's
`Rat.add`, `Rat.sub`, `Rat.mul` and `Rat.inv` are irreducible, so sums and
differences of parsed values built from them could not be evaluated on the
concrete inputs of the witnesses; these wrappers compute the same rationals
through `mkRat`, and the theorems `qAdd_eq`, `qSub_eq`, `qMul_eq` and
`qDiv_eq` below identify them with the ordinary field operations.
-/

/-- Computable addition on `ℚ` (see `qAdd_eq`). -/
def qAdd (a b : ℚ) : ℚ :=
  mkRat (a.num * b.den + a.den * b.num) (a.den * b.den)

/-- Computable negation on `ℚ` (see `qNeg_eq`). -/
def qNeg (a : ℚ) : ℚ :=
  mkRat (-a.num) a.den

/-- Computable subtraction on `ℚ` (see `qSub_eq`). -/
def qSub (a b : ℚ) : ℚ :=
  qAdd a (qNeg b)

/-- Computable multiplication on `ℚ` (see `qMul_eq`). -/
def qMul (a b : ℚ) : ℚ :=
  mkRat (a.num * b.num) (a.den * b.den)

/-- Computable division on `ℚ` (see `qDiv_eq`). -/
def qDiv (a b : ℚ) : ℚ :=
  Rat.divInt (a.num * b.den) (a.den * b.num)

/-- Parse an unsigned decimal literal (`digits`, `digits.digits`, `digits.`
or `.digits`) as a rational. -/
def parseUnsignedDecimal (cs : List Char) : Option ℚ :=
  let intPart := cs.takeWhile Char.isDigit
  let rest := cs.dropWhile Char.isDigit
  match rest with
  | [] => (parseNatDigits intPart).map (fun n => mkRat (n : ℤ) 1)
  | '.' :: frac =>
    if frac.all Char.isDigit ∧ (intPart ≠ [] ∨ frac ≠ []) then
      let iv := (parseNatDigits intPart).getD 0
      let fv := (parseNatDigits frac).getD 0
      some (mkRat ((iv * 10 ^ frac.length + fv : ℕ) : ℤ) (10 ^ frac.length))
    else none
  | _ => none

/-- Model of Python's `float(str)` on the plain decimal literals that occur in
the parsed files (exponent forms are not needed by any claim). -/
def pyFloat (s : String) : Option ℚ :=
  match s.toList with
  | '-' :: rest => (parseUnsignedDecimal rest).map (fun q => qNeg q)
  | '+' :: rest => parseUnsignedDecimal rest
  | cs => parseUnsignedDecimal cs

/-- Python list indexing `xs[i]`, including negative indices from the end;
`none` models an `IndexError`. -/
def pyGet {α : Type u} (xs : List α) (i : ℤ) : Option α :=
  if 0 ≤ i then xs.get? i.toNat
  else if (-i).toNat ≤ xs.length then xs.get? (xs.length - (-i).toNat)
  else none

/-- Python's `int(float)`: truncation toward zero. -/
def pyInt (q : ℚ) : ℤ :=
  if 0 ≤ q then q.floor else -((-q).floor)

/-- Round an integer-scaled rational half to even (Python's `round`). -/
def roundHalfEven (q : ℚ) : ℤ :=
  let f := q.floor
  let r := qSub q (f : ℚ)
  if r < mkRat 1 2 then f
  else if mkRat 1 2 < r then f + 1
  else if f % 2 = 0 then f else f + 1

/-- Model of Python's `round(x, 3)`. -/
def pyRound3 (q : ℚ) : ℚ :=
  mkRat (roundHalfEven (qMul q 1000)) 1000

/-- Turn a list of optional values into an optional list; `none` as soon as
one element is missing (models a raised exception inside a comprehension). -/
def optionAll {α : Type u} : List (Option α) → Option (List α)
  | [] => some []
  | none :: _ => none
  | some a :: rest => (optionAll rest).map (fun l => a :: l)

/-- Python's `min` over a list; `none` models the `ValueError` on `[]`. -/
def pyListMin : List ℚ → Option ℚ
  | [] => none
  | a :: rest =>
    match pyListMin rest with
    | none => some a
    | some b => some (min a b)

/-- Python's `max` over a list; `none` models the `ValueError` on `[]`. -/
def pyListMax : List ℚ → Option ℚ
  | [] => none
  | a :: rest =>
    match pyListMax rest with
    | none => some a
    | some b => some (max a b)

/-- Python's `zip(*xss)` (tuples as lists): row `i` collects element `i` of
every list, for `i` below the minimum length. -/
def pyZip {α : Type u} (xss : List (List α)) : List (List α) :=
  match xss with
  | [] => []
  | x :: rest =>
    let n := rest.foldl (fun m l => min m l.length) x.length
    (List.range n).map (fun i => (x :: rest).filterMap (fun l => l.get? i))

/-- The extension part of `os.path.splitext`: suffix from the last dot,
provided a non-dot character precedes it (leading dots never start one). -/
def pySplitextExt (name : String) : String :=
  let cs := name.toList
  let lead := (cs.takeWhile (fun c => c = '.')).length
  let rest := cs.drop lead
  match (rest.reverse.takeWhile (fun c => c ≠ '.')).reverse, rest.any (fun c => c = '.') with
  | tail, true => String.mk ('.' :: tail)
  | _, false => ""

/-! ## VASP parser: band gap (vasp.py lines 272-336) -/

namespace VaspParser

/-- `VaspParser._get_bandgap_from_bands(energies, nelec)` (vasp.py 272-278):
`nelec = int(nelec)`, `valence = [x[nelec-1] for x in energies]`,
`conduction = [x[nelec] for x in energies]`,
`return max(min(conduction) - max(valence), 0.0)`.
`none` models any raised exception (IndexError or ValueError on `[]`). -/
def getBandgapFromBands (energies : List (List ℚ)) (nelec : ℚ) : Option ℚ :=
  let n : ℤ := pyInt nelec
  match optionAll (energies.map (fun x => pyGet x (n - 1))),
        optionAll (energies.map (fun x => pyGet x n)) with
  | some valence, some conduction =>
    match pyListMin conduction, pyListMax valence with
    | some cmin, some vmax => some (max (qSub cmin vmax) 0)
    | _, _ => none
  | _, _ => none

/-- Core of `VaspParser._get_bandgap_eigenval` (vasp.py 286-293), after the
black-box `EigenvalParser` has produced its records: each record optionally
carries `energies`, a list over bands of per-spin energy lists.
`all_energies = [zip(*x["energies"]) for x in eigenval_info if "energies" in x]`,
`spin_energies = zip(*all_energies)`,
`gaps = [_get_bandgap_from_bands(x, nelec/2.0) for x in spin_energies]`,
`return min(gaps)`. -/
def getBandgapEigenval (recs : List (Option (List (List ℚ)))) (nelec : ℚ) :
    Option ℚ :=
  let allEnergies := (recs.filterMap id).map pyZip
  let spinEnergies := pyZip allEnergies
  match optionAll (spinEnergies.map (fun x => getBandgapFromBands x (qDiv nelec 2))) with
  | some gaps => pyListMin gaps
  | none => none

/-- The `number of electrons` lookup of `_get_bandgap_eigenval` (vasp.py
283-285): `next(iter(filter(lambda x: "number of electrons" in x,
parser.parse(f.readlines()))))["number of electrons"]`, where the black-box
`OutcarParser.parse` is the `ocParse` parameter producing records modelled as
association lists of numeric fields.  `none` models the `StopIteration`. -/
def nelecFromOutcar (ocParse : List String → List (List (String × ℚ)))
    (ocLines : List String) : Option ℚ :=
  match (ocParse ocLines).filter (fun r => r.any (fun p => p.1 = "number of electrons")) with
  | [] => none
  | r :: _ =>
    match r.find? (fun p => p.1 = "number of electrons") with
    | some p => some p.2
    | none => none

/-- `VaspParser._get_bandgap_eigenval(eigenval_fname, outcar_fname)`
(vasp.py 280-293), with the two dftparse black boxes as parameters and the two
files given by their lines. -/
def getBandgapEigenvalFiles (ocParse : List String → List (List (String × ℚ)))
    (evParse : List String → List (Option (List (List ℚ))))
    (evLines ocLines : List String) : PyResult ℚ :=
  match nelecFromOutcar ocParse ocLines with
  | none => .exn "StopIteration: number of electrons not found"
  | some nelec =>
    match getBandgapEigenval (evParse evLines) nelec with
    | some g => .ok g
    | none => .exn "eigenval band gap computation raised"

/-- One data row of the DOSCAR scan (vasp.py 307-311): `l = fp.readline().split()`,
`e = float(l.pop(0))`, `dens = sum(float(l[i]) for i in range(int(len(l)/2)))`.
`none` models the IndexError on an exhausted file or a ValueError. -/
def parseDosRow (l : String) : Option (ℚ × ℚ) :=
  match pySplit l with
  | [] => none
  | e :: rest =>
    match pyFloat e with
    | none => none
    | some ev =>
      match optionAll ((rest.take (rest.length / 2)).map pyFloat) with
      | none => none
      | some ds => some (ev, ds.foldl (fun a b => qAdd a b) 0)

/-- The `while not_found` loop of `_get_bandgap_doscar` (vasp.py 305-316),
carrying the currently bound `bot` (`none` = still unbound): rows with
`e < efermi and dens > 1e-3` rebind `bot`; the first row with `e > efermi and
dens > 1e-3` ends the loop with `(bot, top)`; running past the last line models
the IndexError on `''.split().pop(0)`, and an unbound `bot` at the end models
the NameError in `top - bot`. -/
def doscarLoop (efermi : ℚ) : List String → Option ℚ → PyResult (ℚ × ℚ)
  | [], _ => .exn "IndexError: pop from empty list"
  | l :: rest, bot =>
    match parseDosRow l with
    | none => .exn "ValueError"
    | some (e, dens) =>
      if e < efermi ∧ dens > mkRat 1 1000 then doscarLoop efermi rest (some e)
      else if e > efermi ∧ dens > mkRat 1 1000 then
        match bot with
        | some b => .ok (b, e)
        | none => .exn "NameError: bot"
      else doscarLoop efermi rest bot

/-- `VaspParser._get_bandgap_doscar(filename)` (vasp.py 295-322): six header
lines are read (the sixth holds the Fermi energy at word 3), the next two rows
give the energy step, and the remaining lines feed the scan loop; finally
`bandgap = 0.0 if top - bot < step_size*2 else float(top - bot)`. -/
def getBandgapDoscar (lines : List String) : PyResult ℚ :=
  match lines with
  | _l1 :: _l2 :: _l3 :: _l4 :: _l5 :: l6 :: l7 :: l8 :: rest =>
    match ((pySplit l6).get? 3).bind pyFloat, ((pySplit l7).get? 0).bind pyFloat,
          ((pySplit l8).get? 0).bind pyFloat with
    | some efermi, some s1, some s2 =>
      let stepSize := qSub s2 s1
      match doscarLoop efermi rest none with
      | .ok (bot, top) =>
        .ok (if qSub top bot < qMul stepSize 2 then 0 else qSub top bot)
      | .exn e => .exn e
    | _, _, _ => .exn "DOSCAR header parse raised"
  | _ => .exn "IndexError: DOSCAR header"

/-- A VASP run directory as `get_band_gap` sees it: the three files it probes
with `os.path.isfile`, each present or absent, given by their lines. -/
structure VaspDir where
  outcar : Option (List String)
  eigenval : Option (List String)
  doscar : Option (List String)

/-- The final wrap of `get_band_gap` (vasp.py 336):
`Property(scalars=[Scalar(value=round(bandgap, 3))], units='eV')`, modelled as
the rounded scalar. -/
def wrapGap : PyResult ℚ → PyResult (Option ℚ)
  | .ok g => .ok (some (pyRound3 g))
  | .exn e => .exn e

/-- `VaspParser.get_band_gap(self)` (vasp.py 324-336): eigenvalue path when
OUTCAR and EIGENVAL both exist, else DOSCAR path when DOSCAR exists, else
`None`. -/
def get_band_gap (ocParse : List String → List (List (String × ℚ)))
    (evParse : List String → List (Option (List (List ℚ))))
    (d : VaspDir) : PyResult (Option ℚ) :=
  match d.outcar, d.eigenval with
  | some oc, some ev => wrapGap (getBandgapEigenvalFiles ocParse evParse ev oc)
  | _, _ =>
    match d.doscar with
    | some ds => wrapGap (getBandgapDoscar ds)
    | none => .ok none

end VaspParser

namespace VaspParser

/-! ## VASP parser: pressure and stresses (vasp.py lines 225-259) -/

/-- The reverse scan of `get_pressure` (vasp.py 234-239): the first line of the
(already reversed) sequence containing `external pressure` yields
`float(words[3])` with units `pressure_dict[words[4]]` where
`pressure_dict = \x7b'kB': 'kbar'\x7d`; falling off the loop returns `None`. -/
def pressureScan : List String → PyResult (Option (ℚ × String))
  | [] => .ok none
  | l :: rest =>
    if pyContains l "external pressure" then
      match (pySplit l).get? 3 with
      | none => .exn "IndexError"
      | some w3 =>
        match pyFloat w3 with
        | none => .exn "ValueError"
        | some v =>
          match (pySplit l).get? 4 with
          | none => .exn "IndexError"
          | some w4 => if w4 = "kB" then .ok (some (v, "kbar")) else .exn "KeyError"
    else pressureScan rest

/-- `VaspParser.get_pressure(self)` (vasp.py 225-239): `None` when the OUTCAR
contains `ISIF   =      0`, otherwise the reverse scan over its lines. -/
def get_pressure (lines : List String) : PyResult (Option (ℚ × String)) :=
  if lines.any (fun l => pyContains l "ISIF   =      0") then .ok none
  else pressureScan lines.reverse

/-- The six stress components read off an `in kB` line (vasp.py 253):
`XX YY ZZ XY YZ ZX` at words 2..7. -/
def parseStressLine (l : String) : Option (ℚ × ℚ × ℚ × ℚ × ℚ × ℚ) :=
  let ws := pySplit l
  match (ws.get? 2).bind pyFloat, (ws.get? 3).bind pyFloat, (ws.get? 4).bind pyFloat,
        (ws.get? 5).bind pyFloat, (ws.get? 6).bind pyFloat, (ws.get? 7).bind pyFloat with
  | some xx, some yy, some zz, some xy, some yz, some zx => some (xx, yy, zz, xy, yz, zx)
  | _, _, _, _, _, _ => none

/-- The forward scan of `get_stresses` (vasp.py 250-253): every `in kB` line
overwrites the six components, so the last such line wins; an unparsable
matching line raises. -/
def stressScan : List String → Option (ℚ × ℚ × ℚ × ℚ × ℚ × ℚ) →
    PyResult (Option (ℚ × ℚ × ℚ × ℚ × ℚ × ℚ))
  | [], acc => .ok acc
  | l :: rest, acc =>
    if pyContains l "in kB" then
      match parseStressLine l with
      | some v => stressScan rest (some v)
      | none => .exn "ValueError"
    else stressScan rest acc

/-- `VaspParser.get_stresses(self)` (vasp.py 241-259): `None` under
`ISIF   =      0` or `ISIF   =      1`; otherwise the matrix
`[[XX,XY,ZX],[XY,YY,YZ],[ZX,YZ,ZZ]]` from the last `in kB` line (wrapped by the
source into a `Property` with units `kbar`), and a NameError when no such line
was seen. -/
def get_stresses (lines : List String) : PyResult (Option (List (List ℚ))) :=
  if lines.any (fun l => pyContains l "ISIF   =      0") then .ok none
  else if lines.any (fun l => pyContains l "ISIF   =      1") then .ok none
  else
    match stressScan lines none with
    | .ok (some (xx, yy, zz, xy, yz, zx)) =>
      .ok (some [[xx, xy, zx], [xy, yy, yz], [zx, yz, zz]])
    | .ok none => .exn "NameError: XX"
    | .exn e => .exn e

/-! ## VASP parser: XC functional and cutoff energy (vasp.py 51-61, 91-100) -/

/-- `VaspParser.get_xc_functional(self)` (vasp.py 91-100): the first line
containing `TITEL` yields `words[2]`; with no such line the loop falls through
and the function implicitly returns `None`. -/
def get_xc_functional : List String → PyResult (Option String)
  | [] => .ok none
  | l :: rest =>
    if pyContains l "TITEL" then
      match (pySplit l).get? 2 with
      | some w => .ok (some w)
      | none => .exn "IndexError"
    else get_xc_functional rest

/-- `VaspParser.get_cutoff_energy(self)` (vasp.py 51-61): the first line
containing `ENCUT` yields `float(words[2])` with units `words[3]`; with no such
line the function raises `ENCUT not found`. -/
def get_cutoff_energy : List String → PyResult (Option (ℚ × String))
  | [] => .exn "ENCUT not found"
  | l :: rest =>
    if pyContains l "ENCUT" then
      match (pySplit l).get? 2 with
      | none => .exn "IndexError"
      | some w2 =>
        match pyFloat w2 with
        | none => .exn "ValueError"
        | some v =>
          match (pySplit l).get? 3 with
          | none => .exn "IndexError"
          | some w3 => .ok (some (v, w3))
    else get_cutoff_energy rest

end VaspParser

namespace VaspParser

/-! ## VASP parser: Hubbard-U settings (vasp.py lines 170-207) -/

/-- One per-species entry of `U_param['Values']`: the `L` value set by the
LDAUL pass (which creates the entry), and the `U` and `J` values added by the
later passes. -/
structure UEntry where
  L : ℤ
  U : Option ℚ
  J : Option ℚ
deriving DecidableEq, Repr

/-- The whole `U_param` dictionary: the optional `Type` entry and the
insertion-ordered `Values` dictionary. -/
structure USettings where
  utype : Option ℤ
  values : List (String × UEntry)
deriving DecidableEq, Repr

/-- `int(line.split()[-1])`, the LDAUTYPE extraction (vasp.py 183). -/
def pyLastInt (l : String) : Option ℤ :=
  (pyGet (pySplit l) (-1)).bind pyIntParse

/-- Generic line scan shared by the LDAUL, LDAUU and LDAUJ passes: lines
matching `p` run `step` on the accumulated dictionary, others are skipped, and
a raised exception aborts the scan. -/
def scanLines {β : Type u} (p : String → Bool) (step : String → β → PyResult β) :
    List String → β → PyResult β
  | [], b => .ok b
  | l :: rest, b =>
    if p l then
      match step l b with
      | .ok b2 => scanLines p step rest b2
      | .exn e => .exn e
    else scanLines p step rest b

/-- First pass of `get_U_settings` (vasp.py 178-183): collect `words[3]` of
every TITEL line, in order, and let every LDAUTYPE line overwrite `Type` with
`int(words[-1])`. -/
def uPass1 : List String → List String × Option ℤ → PyResult (List String × Option ℤ)
  | [], st => .ok st
  | l :: rest, (atoms, ty) =>
    if pyContains l "TITEL" then
      match (pySplit l).get? 3 with
      | none => .exn "IndexError"
      | some w =>
        if pyContains l "LDAUTYPE" then
          match pyLastInt l with
          | none => .exn "ValueError"
          | some v => uPass1 rest (atoms ++ [w], some v)
        else uPass1 rest (atoms ++ [w], ty)
    else
      if pyContains l "LDAUTYPE" then
        match pyLastInt l with
        | none => .exn "ValueError"
        | some v => uPass1 rest (atoms, some v)
      else uPass1 rest (atoms, ty)

/-- `U_param['Values'][atom] = \x7b'L': v\x7d` (vasp.py 191): dictionary store
that keeps insertion order, replacing the whole entry when the key exists. -/
def updEntryL (m : List (String × UEntry)) (k : String) (v : ℤ) :
    List (String × UEntry) :=
  if m.any (fun p => p.1 = k) then
    m.map (fun p => if p.1 = k then (k, ⟨v, none, none⟩) else p)
  else m ++ [(k, ⟨v, none, none⟩)]

/-- `U_param['Values'][atom]['U'] = v` (vasp.py 197): a KeyError is raised when
the LDAUL pass never created the entry. -/
def updEntryU (m : List (String × UEntry)) (k : String) (v : ℚ) :
    PyResult (List (String × UEntry)) :=
  if m.any (fun p => p.1 = k) then
    .ok (m.map (fun p => if p.1 = k then (p.1, ⟨p.2.L, some v, p.2.J⟩) else p))
  else .exn "KeyError"

/-- `U_param['Values'][atom]['J'] = v` (vasp.py 203). -/
def updEntryJ (m : List (String × UEntry)) (k : String) (v : ℚ) :
    PyResult (List (String × UEntry)) :=
  if m.any (fun p => p.1 = k) then
    .ok (m.map (fun p => if p.1 = k then (p.1, ⟨p.2.L, p.2.U, some v⟩) else p))
  else .exn "KeyError"

/-- Inner loop of the LDAUL pass (vasp.py 189-191): for the species at index
`i` of the reversed label list, store `int(line.split()[-1-i])`. -/
def uPassInnerL (l : String) : List (ℕ × String) → List (String × UEntry) →
    PyResult (List (String × UEntry))
  | [], m => .ok m
  | (i, a) :: rest, m =>
    match pyGet (pySplit l) (-(1 + (i : ℤ))) with
    | none => .exn "IndexError"
    | some w =>
      match pyIntParse w with
      | none => .exn "ValueError"
      | some v => uPassInnerL l rest (updEntryL m a v)

/-- Inner loop of the LDAUU pass (vasp.py 195-197): store
`float(line.split()[-1-i])` into the existing entry. -/
def uPassInnerU (l : String) : List (ℕ × String) → List (String × UEntry) →
    PyResult (List (String × UEntry))
  | [], m => .ok m
  | (i, a) :: rest, m =>
    match pyGet (pySplit l) (-(1 + (i : ℤ))) with
    | none => .exn "IndexError"
    | some w =>
      match pyFloat w with
      | none => .exn "ValueError"
      | some v =>
        match updEntryU m a v with
        | .ok m2 => uPassInnerU l rest m2
        | .exn e => .exn e

/-- Inner loop of the LDAUJ pass (vasp.py 201-203). -/
def uPassInnerJ (l : String) : List (ℕ × String) → List (String × UEntry) →
    PyResult (List (String × UEntry))
  | [], m => .ok m
  | (i, a) :: rest, m =>
    match pyGet (pySplit l) (-(1 + (i : ℤ))) with
    | none => .exn "IndexError"
    | some w =>
      match pyFloat w with
      | none => .exn "ValueError"
      | some v =>
        match updEntryJ m a v with
        | .ok m2 => uPassInnerJ l rest m2
        | .exn e => .exn e

/-- `VaspParser.get_U_settings(self)` (vasp.py 170-207): `None` when the OUTCAR
never mentions `LDAU`; otherwise the TITEL labels are gathered, reversed, and
the three passes key each species by its reverse-indexed offset from the end of
the LDAUL, LDAUU and LDAUJ lines. -/
def get_U_settings (lines : List String) : PyResult (Option USettings) :=
  if lines.any (fun l => pyContains l "LDAU") then
    match uPass1 lines ([], none) with
    | .exn e => .exn e
    | .ok (atoms0, ty) =>
      let atomsIdx := (atoms0.reverse).enum
      match scanLines (fun l => pyContains l "LDAUL")
          (fun l m => uPassInnerL l atomsIdx m) lines [] with
      | .exn e => .exn e
      | .ok m1 =>
        match scanLines (fun l => pyContains l "LDAUU")
            (fun l m => uPassInnerU l atomsIdx m) lines m1 with
        | .exn e => .exn e
        | .ok m2 =>
          match scanLines (fun l => pyContains l "LDAUJ")
              (fun l m => uPassInnerJ l atomsIdx m) lines m2 with
          | .exn e => .exn e
          | .ok m3 => .ok (some ⟨ty, m3⟩)
  else .ok none

end VaspParser

/-! ## Directory model and applicability tests (vasp.py 19-21, wien2k.py 33-41) -/

/-- A directory as `os.listdir` presents it: filenames in listing order, each
with the lines of its content. -/
abbrev DirListing : Type := List (String × List String)

/-- A value inside a dftparse record: the files carry both numeric fields and
string fields (for example a unit name). -/
inductive PyVal where
  | num : ℚ → PyVal
  | str : String → PyVal
deriving DecidableEq, Repr

/-- A record produced by a black-box dftparse sub-parser: a Python dictionary
modelled as an association list. -/
abbrev PyRecord : Type := List (String × PyVal)

/-- Python's `dict.get`-style lookup used through `rec[key]`. -/
def assocFind (r : PyRecord) (k : String) : Option PyVal :=
  match r.find? (fun p => p.1 = k) with
  | some p => some p.2
  | none => none

/-- `VaspParser.test_if_from(self, directory)` (vasp.py 19-21):
`os.path.isfile(os.path.join(directory, 'OUTCAR'))`. -/
def VaspParser.test_if_from (d : DirListing) : Bool :=
  d.any (fun f => f.1 = "OUTCAR")

namespace Wien2kParser

/-- The signature test on one line (wien2k.py 39):
`"using WIEN2k" in line or ":ITE001:  1. ITERATION" in line`. -/
def signatureLine (l : String) : Bool :=
  pyContains l "using WIEN2k" || pyContains l ":ITE001:  1. ITERATION"

/-- `Wien2kParser.test_if_from(self, directory)` (wien2k.py 33-41): every file
whose `os.path.splitext` extension is `.scf` is opened in listing order and
scanned line by line; the first signature line anywhere returns `True`, and
exhausting the listing returns `False`. -/
def test_if_from (d : DirListing) : Bool :=
  d.any (fun f => pySplitextExt f.1 = ".scf" && f.2.any signatureLine)

/-- The `for filename in os.listdir(...)` prologue shared by
`get_total_energy`, `get_band_gap` and `_extract_file_data` (wien2k.py 61-63,
78-80, 108-110): every file with the wanted extension rebinds `file_path`, so
the last match wins and no match leaves the variable unbound. -/
def lastWithExt (d : DirListing) (ext : String) : Option (String × List String) :=
  d.foldl (fun acc f => if pySplitextExt f.1 = ext then some f else acc) none

/-- `Wien2kParser.get_total_energy(self)` (wien2k.py 59-74), with the black-box
`ScfParser` as the `parse` parameter.  With no `.scf` file in the directory the
`if not file_path` guard reads an unbound local, raising; a bound `file_path`
is a nonempty path string, hence truthy, so the parse proceeds: records
containing `total energy` are kept and the last one yields the energy and its
units. -/
def get_total_energy (parse : List String → List PyRecord) (d : DirListing) :
    PyResult (Option (PyVal × PyVal)) :=
  match lastWithExt d ".scf" with
  | none => .exn "UnboundLocalError: file_path"
  | some f =>
    let hits := (parse f.2).filter (fun r => r.any (fun p => p.1 = "total energy"))
    match hits.getLast? with
    | none => .ok none
    | some m =>
      match assocFind m "total energy", assocFind m "total energy units" with
      | some v, some u => .ok (some (v, u))
      | _, _ => .exn "KeyError"

/-- `Wien2kParser.get_band_gap(self)` (wien2k.py 76-91), with the black-box
`Scf2Parser` as the `parse` parameter; same unbound `file_path` guard, this
time over the `.scf2` extension. -/
def get_band_gap (parse : List String → List PyRecord) (d : DirListing) :
    PyResult (Option (PyVal × PyVal)) :=
  match lastWithExt d ".scf2" with
  | none => .exn "UnboundLocalError: file_path"
  | some f =>
    let hits := (parse f.2).filter (fun r => r.any (fun p => p.1 = "band gap"))
    match hits.getLast? with
    | none => .ok none
    | some m =>
      match assocFind m "band gap", assocFind m "band gap units" with
      | some v, some u => .ok (some (v, u))
      | _, _ => .exn "KeyError"

/-- `Wien2kParser._extract_file_data(directory, ext)` (wien2k.py 105-132), with
the three black-box optical parsers and the `remove_empty`/`transpose_list`
post-processing as parameters; same unbound `file_path` guard over the `ext`
argument, and a ValueError for an unrecognized extension. -/
def extract_file_data (absorpParse elossParse epsilonParse :
      List String → List PyRecord)
    (transform : List PyRecord → List (String × List PyVal))
    (d : DirListing) (ext : String) :
    PyResult (Option (List (String × List PyVal))) :=
  match lastWithExt d ext with
  | none => .exn "UnboundLocalError: file_path"
  | some f =>
    let parser? : Option (List String → List PyRecord) :=
      if ext = ".absorp" then some absorpParse
      else if ext = ".eloss" then some elossParse
      else if ext = ".epsilon" then some epsilonParse
      else none
    match parser? with
    | none => .exn "ValueError: Unrecognized extension"
    | some parse =>
      let hits := (parse f.2).filter (fun r => r.any (fun p => p.1 = "energy"))
      if hits.isEmpty then .ok none
      else .ok (some (transform hits))

/-! The permanently unsupported capability entries (wien2k.py 244-263): each
one is `return None` for every directory. -/

/-- `Wien2kParser.uses_SOC(self)` (wien2k.py 244-245). -/
def uses_SOC (_d : DirListing) : PyResult (Option PyVal) := .ok none

/-- `Wien2kParser.is_relaxed(self)` (wien2k.py 247-248). -/
def is_relaxed (_d : DirListing) : PyResult (Option PyVal) := .ok none

/-- `Wien2kParser.get_U_settings(self)` (wien2k.py 250-251). -/
def get_U_settings (_d : DirListing) : PyResult (Option PyVal) := .ok none

/-- `Wien2kParser.get_vdW_settings(self)` (wien2k.py 253-254). -/
def get_vdW_settings (_d : DirListing) : PyResult (Option PyVal) := .ok none

/-- `Wien2kParser.get_pressure(self)` (wien2k.py 256-257). -/
def get_pressure (_d : DirListing) : PyResult (Option PyVal) := .ok none

/-- `Wien2kParser.get_stresses(self)` (wien2k.py 259-260). -/
def get_stresses (_d : DirListing) : PyResult (Option PyVal) := .ok none

/-- `Wien2kParser.get_dos(self)` (wien2k.py 262-263). -/
def get_dos (_d : DirListing) : PyResult (Option PyVal) := .ok none

end Wien2kParser

/-! ## Spec-side definitions used to state the claims -/

/-- Minimum of a rational list with default `0` (used only on nonempty lists,
where it agrees with `pyListMin`). -/
def minD (xs : List ℚ) : ℚ := (pyListMin xs).getD 0

/-- Maximum of a rational list with default `0`. -/
def maxD (xs : List ℚ) : ℚ := (pyListMax xs).getD 0

/-- The per-spin-channel gap formula of the claim: valence max is the maximum
over k-points of the band energy at index `idx - 1`, conduction min the
minimum at index `idx`, and the gap is `max(conduction_min - valence_max, 0)`. -/
def specChannelGap (c : List (List ℚ)) (idx : ℕ) : ℚ :=
  max (minD (c.map (fun r => r.getD idx 0)) -
       maxD (c.map (fun r => r.getD (idx - 1) 0))) 0

/-- Modelled from the spec: an applicability test that looks for a signature
line only within the first file carrying the `.scf` extension, as the sentence
`Wien2k scans files with a specific extension for a signature line within the
first matching file` reads. -/
def wien2kTestFirstScfOnly (d : DirListing) : Bool :=
  match d.find? (fun f => pySplitextExt f.1 = ".scf") with
  | none => false
  | some f => f.2.any Wien2kParser.signatureLine

/-! ## Basic lemmas about the primitives -/

theorem optionAll_map_some {α : Type u} {β : Type v} (xs : List α)
    (f : α → Option β) (g : α → β) (h : ∀ x ∈ xs, f x = some (g x)) :
    optionAll (xs.map f) = some (xs.map g) := by
  induction xs with
  | nil => rfl
  | cons a rest ih =>
    have ha := h a (by simp)
    have hrest := ih (fun x hx => h x (by simp [hx]))
    simp [optionAll, ha, hrest]

theorem pyListMin_eq_minD (xs : List ℚ) (h : xs ≠ []) :
    pyListMin xs = some (minD xs) := by
  cases xs with
  | nil => exact absurd rfl h
  | cons a rest =>
    unfold minD pyListMin
    cases pyListMin rest <;> simp

theorem pyListMax_eq_maxD (xs : List ℚ) (h : xs ≠ []) :
    pyListMax xs = some (maxD xs) := by
  cases xs with
  | nil => exact absurd rfl h
  | cons a rest =>
    unfold maxD pyListMax
    cases pyListMax rest <;> simp

theorem pyListMin_nonneg (xs : List ℚ) (h : ∀ x ∈ xs, 0 ≤ x) (m : ℚ)
    (hm : pyListMin xs = some m) : 0 ≤ m := by
  induction xs generalizing m with
  | nil => simp [pyListMin] at hm
  | cons a rest ih =>
    unfold pyListMin at hm
    cases hrest : pyListMin rest with
    | none =>
      rw [hrest] at hm
      simp at hm
      exact hm ▸ h a (by simp)
    | some b =>
      rw [hrest] at hm
      simp at hm
      have hb := ih (fun x hx => h x (by simp [hx])) b hrest
      have ha := h a (by simp)
      subst hm
      exact le_min ha hb

theorem qAdd_eq (a b : ℚ) : qAdd a b = a + b := by
  unfold qAdd
  rw [Rat.mkRat_eq_divInt, Rat.divInt_eq_div]
  have ha : ((a.den : ℚ)) ≠ 0 := by
    exact_mod_cast a.den_nz
  have hb : ((b.den : ℚ)) ≠ 0 := by
    exact_mod_cast b.den_nz
  conv_rhs => rw [← Rat.num_div_den a, ← Rat.num_div_den b]
  rw [div_add_div _ _ ha hb]
  push_cast
  ring_nf

theorem qNeg_eq (a : ℚ) : qNeg a = -a := by
  unfold qNeg
  rw [Rat.mkRat_eq_divInt, Rat.divInt_eq_div]
  push_cast
  rw [neg_div, Rat.num_div_den]

theorem qSub_eq (a b : ℚ) : qSub a b = a - b := by
  rw [qSub, qAdd_eq, qNeg_eq, sub_eq_add_neg]

theorem qMul_eq (a b : ℚ) : qMul a b = a * b := by
  unfold qMul
  rw [Rat.mkRat_eq_divInt, Rat.divInt_eq_div]
  push_cast
  rw [← div_mul_div_comm, Rat.num_div_den, Rat.num_div_den]

theorem qDiv_eq (a b : ℚ) : qDiv a b = a / b := by
  unfold qDiv
  rw [Rat.divInt_eq_div]
  rcases eq_or_ne b 0 with rfl | hb
  · simp
  · have hb2 : ((b.num : ℚ)) ≠ 0 := by
      exact_mod_cast Rat.num_ne_zero.mpr hb
    have ha : ((a.den : ℚ)) ≠ 0 := by
      exact_mod_cast a.den_nz
    have hbd : ((b.den : ℚ)) ≠ 0 := by
      exact_mod_cast b.den_nz
    push_cast
    rw [div_eq_div_iff (mul_ne_zero ha hb2) hb]
    have hA : ((a.num : ℚ)) = a * a.den := (div_eq_iff ha).mp (Rat.num_div_den a)
    have hB : ((b.num : ℚ)) = b * b.den := (div_eq_iff hbd).mp (Rat.num_div_den b)
    rw [hA, hB]
    ring

/-! ## C6: permanently unsupported Wien2k capability entries -/

/-- C6: every capability entry the Wien2k backend marks permanently
unsupported (uses_SOC, is_relaxed, get_U_settings, get_vdW_settings,
get_pressure, get_stresses, get_dos) yields the not-applicable outcome
(`ok none`) for every directory, and never raises a required-field-missing
failure. -/
theorem wien2k_unsupported_entries_not_applicable (d : DirListing) :
    Wien2kParser.uses_SOC d = .ok none ∧
    Wien2kParser.is_relaxed d = .ok none ∧
    Wien2kParser.get_U_settings d = .ok none ∧
    Wien2kParser.get_vdW_settings d = .ok none ∧
    Wien2kParser.get_pressure d = .ok none ∧
    Wien2kParser.get_stresses d = .ok none ∧
    Wien2kParser.get_dos d = .ok none :=
  ⟨rfl, rfl, rfl, rfl, rfl, rfl, rfl⟩

/-! ## C10: missing TITEL is silent, missing ENCUT raises -/

/-- C10: for an OUTCAR with no TITEL line, `get_xc_functional` returns no
value rather than raising, while its sibling `get_cutoff_energy` raises when
its ENCUT marker is missing. -/
theorem xc_functional_silent_on_missing_titel (lines : List String) :
    ((∀ l ∈ lines, pyContains l "TITEL" = false) →
      VaspParser.get_xc_functional lines = .ok none) ∧
    ((∀ l ∈ lines, pyContains l "ENCUT" = false) →
      VaspParser.get_cutoff_energy lines = .exn "ENCUT not found") := by
  constructor
  · intro h
    induction lines with
    | nil => rfl
    | cons l rest ih =>
      have hl := h l (by simp)
      simp only [VaspParser.get_xc_functional, hl]
      exact ih (fun s hs => h s (by simp [hs]))
  · intro h
    induction lines with
    | nil => rfl
    | cons l rest ih =>
      have hl := h l (by simp)
      simp only [VaspParser.get_cutoff_energy, hl]
      exact ih (fun s hs => h s (by simp [hs]))

/-- Witness for C10 at a concrete OUTCAR containing neither marker. -/
theorem xc_functional_silent_on_missing_titel_witness :
    VaspParser.get_xc_functional ["POTCAR:  PAW_PBE Al 04Jan2001"] = .ok none ∧
    VaspParser.get_cutoff_energy ["POTCAR:  PAW_PBE Al 04Jan2001"] =
      .exn "ENCUT not found" :=
  ⟨(xc_functional_silent_on_missing_titel _).1 (by decide),
   (xc_functional_silent_on_missing_titel _).2 (by decide)⟩

/-! ## C9: the unbound file_path guard in the Wien2k extractors -/

theorem lastWithExt_eq_none (d : DirListing) (ext : String)
    (h : ∀ f ∈ d, pySplitextExt f.1 ≠ ext) :
    Wien2kParser.lastWithExt d ext = none := by
  have haux : ∀ (l : DirListing) (acc : Option (String × List String)),
      (∀ f ∈ l, pySplitextExt f.1 ≠ ext) →
      l.foldl (fun acc f => if pySplitextExt f.1 = ext then some f else acc) acc = acc := by
    intro l
    induction l with
    | nil => intro acc _; rfl
    | cons f rest ih =>
      intro acc h
      have hf := h f (by simp)
      simp only [List.foldl_cons, if_neg hf]
      exact ih acc (fun g hg => h g (by simp [hg]))
  exact haux d none h

/-- C9: for a directory with no `.scf` file, `get_total_energy` does not
return the not-applicable value but fails with an unbound-variable error,
because the `if not file_path` guard reads a never-bound local; the same holds
for `get_band_gap` with `.scf2` and for `_extract_file_data` with its
extension argument. -/
theorem wien2k_unbound_file_path (parseScf parseScf2 pa pl pe :
      List String → List PyRecord)
    (tr : List PyRecord → List (String × List PyVal))
    (d : DirListing) (ext : String) :
    ((∀ f ∈ d, pySplitextExt f.1 ≠ ".scf") →
      Wien2kParser.get_total_energy parseScf d =
        .exn "UnboundLocalError: file_path") ∧
    ((∀ f ∈ d, pySplitextExt f.1 ≠ ".scf2") →
      Wien2kParser.get_band_gap parseScf2 d =
        .exn "UnboundLocalError: file_path") ∧
    ((∀ f ∈ d, pySplitextExt f.1 ≠ ext) →
      Wien2kParser.extract_file_data pa pl pe tr d ext =
        .exn "UnboundLocalError: file_path") := by
  refine ⟨fun h => ?_, fun h => ?_, fun h => ?_⟩
  · simp only [Wien2kParser.get_total_energy, lastWithExt_eq_none d _ h]
  · simp only [Wien2kParser.get_band_gap, lastWithExt_eq_none d _ h]
  · simp only [Wien2kParser.extract_file_data, lastWithExt_eq_none d _ h]

/-- Witness for C9 at a concrete directory holding only an OUTCAR. -/
theorem wien2k_unbound_file_path_witness :
    Wien2kParser.get_total_energy (fun _ => []) [("OUTCAR", [])] =
      .exn "UnboundLocalError: file_path" ∧
    Wien2kParser.get_band_gap (fun _ => []) [("OUTCAR", [])] =
      .exn "UnboundLocalError: file_path" ∧
    Wien2kParser.extract_file_data (fun _ => []) (fun _ => []) (fun _ => [])
      (fun _ => []) [("OUTCAR", [])] ".absorp" =
      .exn "UnboundLocalError: file_path" :=
  ⟨(wien2k_unbound_file_path (fun _ => []) (fun _ => []) (fun _ => [])
      (fun _ => []) (fun _ => []) (fun _ => []) [("OUTCAR", [])] ".absorp").1
      (by decide),
   (wien2k_unbound_file_path (fun _ => []) (fun _ => []) (fun _ => [])
      (fun _ => []) (fun _ => []) (fun _ => []) [("OUTCAR", [])] ".absorp").2.1
      (by decide),
   (wien2k_unbound_file_path (fun _ => []) (fun _ => []) (fun _ => [])
      (fun _ => []) (fun _ => []) (fun _ => []) [("OUTCAR", [])] ".absorp").2.2
      (by decide)⟩

/-! ## C7: applicability tests -/

/-- Counterexample to C7 as stated: in a directory whose first `.scf` file has
no signature line but whose second one does, the code's applicability test
succeeds, while a test that looks for the signature only within the first
matching file (the claim's wording) fails. -/
theorem wien2k_test_not_first_file_only :
    Wien2kParser.test_if_from
      [("a.scf", ["no marker here"]), ("b.scf", ["Calculations using WIEN2k"])] = true ∧
    wien2kTestFirstScfOnly
      [("a.scf", ["no marker here"]), ("b.scf", ["Calculations using WIEN2k"])] = false := by
  constructor <;> decide

/-- C7 (amended): the VASP applicability test returns true exactly when a file
named OUTCAR exists in the directory; the Wien2k applicability test scans every
file with the `.scf` extension, in listing order, and returns true exactly when
some such file contains a signature line, and false (without throwing) for
directories lacking `.scf` files. -/
theorem applicability_tests (d : DirListing) :
    (VaspParser.test_if_from d = true ↔ ∃ f ∈ d, f.1 = "OUTCAR") ∧
    (Wien2kParser.test_if_from d = true ↔
      ∃ f ∈ d, pySplitextExt f.1 = ".scf" ∧ f.2.any Wien2kParser.signatureLine = true) ∧
    ((∀ f ∈ d, pySplitextExt f.1 ≠ ".scf") →
      Wien2kParser.test_if_from d = false) := by
  refine ⟨?_, ?_, ?_⟩
  · simp [VaspParser.test_if_from, List.any_eq_true]
  · simp [Wien2kParser.test_if_from, List.any_eq_true]
  · intro h
    rw [← Bool.not_eq_true]
    intro hc
    obtain ⟨f, hf, hext, _⟩ :=
      (by simpa [Wien2kParser.test_if_from, List.any_eq_true] using hc :
        ∃ f ∈ d, pySplitextExt f.1 = ".scf" ∧ f.2.any Wien2kParser.signatureLine = true)
    exact h f hf hext

/-- Witness for the amended C7 at concrete directories. -/
theorem applicability_tests_witness :
    VaspParser.test_if_from [("OUTCAR", ["x"])] = true ∧
    Wien2kParser.test_if_from [("case.scf", [":ITE001:  1. ITERATION"])] = true ∧
    Wien2kParser.test_if_from [("OUTCAR", ["x"])] = false :=
  ⟨(applicability_tests [("OUTCAR", ["x"])]).1.mpr (by decide),
   (applicability_tests [("case.scf", [":ITE001:  1. ITERATION"])]).2.1.mpr
     (by decide),
   (applicability_tests [("OUTCAR", ["x"])]).2.2 (by decide)⟩

/-! ## C5: pressure from the last matching line, ISIF = 0 suppression -/

theorem pressureScan_append_skip (pre rest : List String)
    (h : ∀ l ∈ pre, pyContains l "external pressure" = false) :
    VaspParser.pressureScan (pre ++ rest) = VaspParser.pressureScan rest := by
  induction pre with
  | nil => rfl
  | cons l pre ih =>
    have hl := h l (by simp)
    simp only [List.cons_append, VaspParser.pressureScan, hl, Bool.false_eq_true,
      if_false]
    exact ih (fun s hs => h s (by simp [hs]))

/-- C5: with more than one `external pressure` line, `get_pressure` returns the
value of the LAST matching line (the reverse scan stops at it), and under
`ISIF   =      0` the pressure is reported not applicable regardless of any
pressure lines. -/
theorem get_pressure_last_line (lines pre post : List String) (l w3 : String)
    (v : ℚ) :
    (lines.any (fun s => pyContains s "ISIF   =      0") = true →
      VaspParser.get_pressure lines = .ok none) ∧
    (lines = pre ++ l :: post →
     lines.any (fun s => pyContains s "ISIF   =      0") = false →
     pyContains l "external pressure" = true →
     (∀ s ∈ post, pyContains s "external pressure" = false) →
     (pySplit l).get? 3 = some w3 →
     pyFloat w3 = some v →
     (pySplit l).get? 4 = some "kB" →
     VaspParser.get_pressure lines = .ok (some (v, "kbar"))) := by
  constructor
  · intro h
    simp only [VaspParser.get_pressure, h, if_true]
  · intro hsplit hisif hl hpost h3 hv h4
    have hrev : lines.reverse = post.reverse ++ l :: pre.reverse := by
      rw [hsplit]
      simp
    simp only [VaspParser.get_pressure, hisif, Bool.false_eq_true, if_false, hrev]
    rw [pressureScan_append_skip post.reverse (l :: pre.reverse)
      (fun s hs => hpost s (by simpa using hs))]
    simp only [VaspParser.pressureScan, hl, if_true, h3, hv, h4]

/-- Witness for C5: a synthetic OUTCAR with two `external pressure` lines
yields the value of the second, and adding `ISIF   =      0` suppresses it. -/
theorem get_pressure_last_line_witness :
    VaspParser.get_pressure
      ["  external pressure =        3.50 kB  Pullay stress =        0.00 kB",
       "  external pressure =       -7.25 kB  Pullay stress =        0.00 kB"] =
      .ok (some (mkRat (-29) 4, "kbar")) ∧
    VaspParser.get_pressure
      ["   ISIF   =      0    reading from INCAR",
       "  external pressure =        3.50 kB  Pullay stress =        0.00 kB"] =
      .ok none :=
  ⟨(get_pressure_last_line
      ["  external pressure =        3.50 kB  Pullay stress =        0.00 kB",
       "  external pressure =       -7.25 kB  Pullay stress =        0.00 kB"]
      ["  external pressure =        3.50 kB  Pullay stress =        0.00 kB"] []
      "  external pressure =       -7.25 kB  Pullay stress =        0.00 kB"
      "-7.25" (mkRat (-29) 4)).2 (by decide) (by decide) (by decide) (by decide)
      (by decide) (by decide) (by decide),
   (get_pressure_last_line
      ["   ISIF   =      0    reading from INCAR",
       "  external pressure =        3.50 kB  Pullay stress =        0.00 kB"]
      [] [] "" "" 0).1 (by decide)⟩

/-! ## C4: the symmetric stress matrix -/

theorem stressScan_append_parseable (pre rest : List String)
    (acc : Option (ℚ × ℚ × ℚ × ℚ × ℚ × ℚ))
    (h : ∀ s ∈ pre, pyContains s "in kB" = true →
      ∃ w, VaspParser.parseStressLine s = some w) :
    ∃ acc2, VaspParser.stressScan (pre ++ rest) acc =
      VaspParser.stressScan rest acc2 := by
  induction pre generalizing acc with
  | nil => exact ⟨acc, rfl⟩
  | cons s pre ih =>
    by_cases hs : pyContains s "in kB" = true
    · obtain ⟨w, hw⟩ := h s (by simp) hs
      simp only [List.cons_append, VaspParser.stressScan, hs, if_true, hw]
      exact ih (some w) (fun t ht => h t (by simp [ht]))
    · simp only [List.cons_append, VaspParser.stressScan, hs, if_false]
      exact ih acc (fun t ht => h t (by simp [ht]))

theorem stressScan_no_match (post : List String)
    (acc : Option (ℚ × ℚ × ℚ × ℚ × ℚ × ℚ))
    (h : ∀ s ∈ post, pyContains s "in kB" = false) :
    VaspParser.stressScan post acc = .ok acc := by
  induction post with
  | nil => rfl
  | cons s post ih =>
    have hs := h s (by simp)
    simp only [VaspParser.stressScan, hs, Bool.false_eq_true, if_false]
    exact ih (fun t ht => h t (by simp [ht]))

/-- C4: for an OUTCAR not in mode `ISIF   =      0` or `ISIF   =      1` whose
last `in kB` line carries the six values `XX YY ZZ XY YZ ZX`, `get_stresses`
returns the symmetric matrix `[[XX,XY,ZX],[XY,YY,YZ],[ZX,YZ,ZZ]]`. -/
theorem get_stresses_symmetric_matrix (lines pre post : List String) (l : String)
    (xx yy zz xy yz zx : ℚ)
    (h0 : lines.any (fun s => pyContains s "ISIF   =      0") = false)
    (h1 : lines.any (fun s => pyContains s "ISIF   =      1") = false)
    (hsplit : lines = pre ++ l :: post)
    (hpre : ∀ s ∈ pre, pyContains s "in kB" = true →
      ∃ w, VaspParser.parseStressLine s = some w)
    (hl : pyContains l "in kB" = true)
    (hparse : VaspParser.parseStressLine l = some (xx, yy, zz, xy, yz, zx))
    (hpost : ∀ s ∈ post, pyContains s "in kB" = false) :
    VaspParser.get_stresses lines =
      .ok (some [[xx, xy, zx], [xy, yy, yz], [zx, yz, zz]]) := by
  simp only [VaspParser.get_stresses, h0, h1, Bool.false_eq_true, if_false]
  obtain ⟨acc2, hacc⟩ :=
    stressScan_append_parseable pre (l :: post) none hpre
  rw [hsplit, hacc]
  simp only [VaspParser.stressScan, hl, if_true, hparse]
  rw [stressScan_no_match post _ hpost]

/-- Witness for C4 at the claim's example values
`1.0 2.0 3.0 0.1 0.2 0.3`. -/
theorem get_stresses_symmetric_matrix_witness :
    VaspParser.get_stresses
      ["   ISIF   =      3    relaxation mode",
       "  in kB       1.0     2.0     3.0     0.1     0.2     0.3"] =
      .ok (some [[1, mkRat 1 10, mkRat 3 10], [mkRat 1 10, 2, mkRat 1 5],
        [mkRat 3 10, mkRat 1 5, 3]]) :=
  get_stresses_symmetric_matrix
    ["   ISIF   =      3    relaxation mode",
     "  in kB       1.0     2.0     3.0     0.1     0.2     0.3"]
    ["   ISIF   =      3    relaxation mode"] []
    "  in kB       1.0     2.0     3.0     0.1     0.2     0.3"
    1 2 3 (mkRat 1 10) (mkRat 1 5) (mkRat 3 10)
    (by decide) (by decide) (by decide)
    (by intro s hs hc
        rcases List.mem_singleton.mp hs with rfl
        exact absurd hc (by decide))
    (by decide) (by decide) (by decide)

/-! ## C2: band-gap source selection -/

/-- C2: `get_band_gap` uses the eigenvalue path whenever OUTCAR and EIGENVAL
both exist, otherwise the DOSCAR path when DOSCAR exists, and with neither
file set it reports the property not applicable: `ok none`, no error. -/
theorem get_band_gap_selection (ocParse : List String → List (List (String × ℚ)))
    (evParse : List String → List (Option (List (List ℚ))))
    (d : VaspParser.VaspDir) (oc ev ds : List String) :
    (d.outcar = some oc → d.eigenval = some ev →
      VaspParser.get_band_gap ocParse evParse d =
        VaspParser.wrapGap
          (VaspParser.getBandgapEigenvalFiles ocParse evParse ev oc)) ∧
    ((d.outcar = none ∨ d.eigenval = none) → d.doscar = some ds →
      VaspParser.get_band_gap ocParse evParse d =
        VaspParser.wrapGap (VaspParser.getBandgapDoscar ds)) ∧
    ((d.outcar = none ∨ d.eigenval = none) → d.doscar = none →
      VaspParser.get_band_gap ocParse evParse d = .ok none) := by
  obtain ⟨o, e, dos⟩ := d
  refine ⟨fun h1 h2 => ?_, fun h hds => ?_, fun h hds => ?_⟩
  · cases h1
    cases h2
    rfl
  · cases hds
    rcases h with h | h
    · cases h
      cases e <;> rfl
    · cases h
      cases o <;> rfl
  · cases hds
    rcases h with h | h
    · cases h
      cases e <;> rfl
    · cases h
      cases o <;> rfl

/-- Witness for C2 at three concrete directories, one per branch. -/
theorem get_band_gap_selection_witness :
    VaspParser.get_band_gap (fun _ => []) (fun _ => [])
      ⟨some ["oc"], some ["ev"], none⟩ =
      VaspParser.wrapGap
        (VaspParser.getBandgapEigenvalFiles (fun _ => []) (fun _ => [])
          ["ev"] ["oc"]) ∧
    VaspParser.get_band_gap (fun _ => []) (fun _ => [])
      ⟨none, none, some ["ds"]⟩ =
      VaspParser.wrapGap (VaspParser.getBandgapDoscar ["ds"]) ∧
    VaspParser.get_band_gap (fun _ => []) (fun _ => [])
      ⟨some ["oc"], none, none⟩ = .ok none :=
  ⟨(get_band_gap_selection (fun _ => []) (fun _ => [])
      ⟨some ["oc"], some ["ev"], none⟩ ["oc"] ["ev"] []).1 rfl rfl,
   (get_band_gap_selection (fun _ => []) (fun _ => [])
      ⟨none, none, some ["ds"]⟩ [] [] ["ds"]).2.1 (Or.inl rfl) rfl,
   (get_band_gap_selection (fun _ => []) (fun _ => [])
      ⟨some ["oc"], none, none⟩ [] [] []).2.2 (Or.inr rfl) rfl⟩

/-! ## C3: the density-of-states fallback and its two-step noise guard -/

theorem doscarLoop_skip_neutral (efermi : ℚ) (p rest : List String) (b : Option ℚ)
    (hp : ∀ s ∈ p, ∃ e dd, VaspParser.parseDosRow s = some (e, dd) ∧
      ¬(e > efermi ∧ dd > mkRat 1 1000) ∧ ¬(e < efermi ∧ dd > mkRat 1 1000)) :
    VaspParser.doscarLoop efermi (p ++ rest) b =
      VaspParser.doscarLoop efermi rest b := by
  induction p generalizing b with
  | nil => rfl
  | cons s p ih =>
    obtain ⟨e, dd, hparse, hnt, hnb⟩ := hp s (by simp)
    simp only [List.cons_append, VaspParser.doscarLoop, hparse, if_neg hnb,
      if_neg hnt]
    exact ih b (fun t ht => hp t (List.mem_cons_of_mem _ ht))

theorem doscarLoop_exists_state (efermi : ℚ) (p rest : List String) (b : Option ℚ)
    (hp : ∀ s ∈ p, ∃ e dd, VaspParser.parseDosRow s = some (e, dd) ∧
      ¬(e > efermi ∧ dd > mkRat 1 1000)) :
    ∃ b2, VaspParser.doscarLoop efermi (p ++ rest) b =
      VaspParser.doscarLoop efermi rest b2 := by
  induction p generalizing b with
  | nil => exact ⟨b, rfl⟩
  | cons s p ih =>
    obtain ⟨e, dd, hparse, hnt⟩ := hp s (by simp)
    by_cases hb : e < efermi ∧ dd > mkRat 1 1000
    · simp only [List.cons_append, VaspParser.doscarLoop, hparse, if_pos hb]
      exact ih (some e) (fun t ht => hp t (List.mem_cons_of_mem _ ht))
    · simp only [List.cons_append, VaspParser.doscarLoop, hparse, if_neg hb,
        if_neg hnt]
      exact ih b (fun t ht => hp t (List.mem_cons_of_mem _ ht))

/-- C3: in the density-of-states fallback, with valence edge `bot` (the highest
energy below the Fermi energy with density above the threshold, the last one
the scan rebinds) and conduction edge `top` (the first energy above the Fermi
energy with density above the threshold), the returned gap is exactly `0` when
`top - bot < 2 * step_size` and exactly `top - bot` otherwise. -/
theorem doscar_gap_two_step_guard (lines : List String)
    (l1 l2 l3 l4 l5 l6 l7 l8 lBot lTop : String)
    (p1 p2 post : List String) (efermi s1 s2 bot top dB dT : ℚ)
    (hlines : lines = l1 :: l2 :: l3 :: l4 :: l5 :: l6 :: l7 :: l8 ::
      (p1 ++ lBot :: (p2 ++ lTop :: post)))
    (hef : ((pySplit l6).get? 3).bind pyFloat = some efermi)
    (hs1 : ((pySplit l7).get? 0).bind pyFloat = some s1)
    (hs2 : ((pySplit l8).get? 0).bind pyFloat = some s2)
    (hp1 : ∀ s ∈ p1, ∃ e dd, VaspParser.parseDosRow s = some (e, dd) ∧
      ¬(e > efermi ∧ dd > mkRat 1 1000))
    (hhigh : ∀ s ∈ p1, ∀ e dd, VaspParser.parseDosRow s = some (e, dd) →
      e < efermi → dd > mkRat 1 1000 → e ≤ bot)
    (hBot : VaspParser.parseDosRow lBot = some (bot, dB))
    (hBotLt : bot < efermi) (hBotD : dB > mkRat 1 1000)
    (hp2 : ∀ s ∈ p2, ∃ e dd, VaspParser.parseDosRow s = some (e, dd) ∧
      ¬(e > efermi ∧ dd > mkRat 1 1000) ∧ ¬(e < efermi ∧ dd > mkRat 1 1000))
    (hTop : VaspParser.parseDosRow lTop = some (top, dT))
    (hTopGt : top > efermi) (hTopD : dT > mkRat 1 1000) :
    (top - bot < (s2 - s1) * 2 → VaspParser.getBandgapDoscar lines = .ok 0) ∧
    (¬(top - bot < (s2 - s1) * 2) →
      VaspParser.getBandgapDoscar lines = .ok (top - bot)) := by
  have hloop : VaspParser.doscarLoop efermi
      (p1 ++ lBot :: (p2 ++ lTop :: post)) none = .ok (bot, top) := by
    obtain ⟨b2, hb2⟩ := doscarLoop_exists_state efermi p1
      (lBot :: (p2 ++ lTop :: post)) none hp1
    rw [hb2]
    have hnt : ¬(bot > efermi ∧ dB > mkRat 1 1000) :=
      fun hc => absurd hBotLt (not_lt_of_gt hc.1)
    simp only [VaspParser.doscarLoop, hBot, if_pos (And.intro hBotLt hBotD)]
    rw [doscarLoop_skip_neutral efermi p2 (lTop :: post) (some bot) hp2]
    have hnb : ¬(top < efermi ∧ dT > mkRat 1 1000) :=
      fun hc => absurd hTopGt (not_lt_of_gt hc.1)
    simp only [VaspParser.doscarLoop, hTop, if_neg hnb,
      if_pos (And.intro hTopGt hTopD)]
  have hmain : VaspParser.getBandgapDoscar lines =
      .ok (if qSub top bot < qMul (qSub s2 s1) 2 then 0 else qSub top bot) := by
    rw [hlines]
    simp only [VaspParser.getBandgapDoscar, hef, hs1, hs2, hloop]
  have hcond : (qSub top bot < qMul (qSub s2 s1) 2) ↔
      (top - bot < (s2 - s1) * 2) := by
    rw [qSub_eq, qSub_eq, qMul_eq]
  constructor
  · intro h
    rw [hmain, if_pos (hcond.mpr h)]
  · intro h
    rw [hmain, if_neg (fun hc => h (hcond.mp hc)), qSub_eq]

/-- Witness for C3 on two synthetic DOSCAR files: Fermi energy 5, energy step
2, valence edge 4; a conduction edge at 9 (gap 5, above the guard) yields the
literal difference, one at 6 (gap 2, below the guard) yields 0. -/
theorem doscar_gap_two_step_guard_witness :
    VaspParser.getBandgapDoscar
      ["h", "h", "h", "h", "h", "x x x 5", "0 1 1", "2 1 1", "4 1 1", "9 1 1"] =
      .ok 5 ∧
    VaspParser.getBandgapDoscar
      ["h", "h", "h", "h", "h", "x x x 5", "0 1 1", "2 1 1", "4 1 1", "6 1 1"] =
      .ok 0 := by
  constructor
  · have h := (doscar_gap_two_step_guard
      ["h", "h", "h", "h", "h", "x x x 5", "0 1 1", "2 1 1", "4 1 1", "9 1 1"]
      "h" "h" "h" "h" "h" "x x x 5" "0 1 1" "2 1 1" "4 1 1" "9 1 1"
      [] [] [] 5 0 2 4 9 1 1 (by decide) (by decide) (by decide) (by decide)
      (by simp) (by simp) (by decide) (by decide) (by decide) (by simp)
      (by decide) (by decide) (by decide)).2 (by norm_num)
    rw [h]
    norm_num
  · exact (doscar_gap_two_step_guard
      ["h", "h", "h", "h", "h", "x x x 5", "0 1 1", "2 1 1", "4 1 1", "6 1 1"]
      "h" "h" "h" "h" "h" "x x x 5" "0 1 1" "2 1 1" "4 1 1" "6 1 1"
      [] [] [] 5 0 2 4 6 1 1 (by decide) (by decide) (by decide) (by decide)
      (by simp) (by simp) (by decide) (by decide) (by decide) (by simp)
      (by decide) (by decide) (by decide)).1 (by norm_num)

/-! ## C1: eigenvalue-path band gap, minimum over spin channels -/

theorem get?_eq_some_getD {α : Type u} (l : List α) (n : ℕ) (d : α)
    (h : n < l.length) : l.get? n = some (l.getD n d) := by
  induction l generalizing n with
  | nil => simp at h
  | cons a t ih =>
    cases n with
    | zero => rfl
    | succ n =>
      simp only [List.get?, List.getD_cons_succ]
      exact ih n (by simpa using h)

theorem getBandgapFromBands_eq (c : List (List ℚ)) (nelec2 : ℚ) (idx : ℕ)
    (hidx : pyInt nelec2 = (idx : ℤ)) (h1 : 1 ≤ idx) (hne : c ≠ [])
    (hrows : ∀ r ∈ c, idx < r.length) :
    VaspParser.getBandgapFromBands c nelec2 = some (specChannelGap c idx) := by
  unfold VaspParser.getBandgapFromBands
  rw [hidx]
  have hval : optionAll (c.map (fun x => pyGet x ((idx : ℤ) - 1))) =
      some (c.map (fun r => r.getD (idx - 1) 0)) := by
    apply optionAll_map_some
    intro r hr
    have hnn : (0 : ℤ) ≤ (idx : ℤ) - 1 := by
      omega
    have hcast : (idx : ℤ) - 1 = ((idx - 1 : ℕ) : ℤ) := by
      omega
    unfold pyGet
    rw [if_pos hnn, hcast, Int.toNat_natCast]
    exact get?_eq_some_getD r (idx - 1) 0
      (lt_of_le_of_lt (Nat.sub_le idx 1) (hrows r hr))
  have hcond : optionAll (c.map (fun x => pyGet x (idx : ℤ))) =
      some (c.map (fun r => r.getD idx 0)) := by
    apply optionAll_map_some
    intro r hr
    unfold pyGet
    rw [if_pos (by omega : (0 : ℤ) ≤ (idx : ℤ)), Int.toNat_natCast]
    exact get?_eq_some_getD r idx 0 (hrows r hr)
  have hmapne : ∀ (f : List ℚ → ℚ), c.map f ≠ [] := by
    intro f hmap
    exact hne (List.map_eq_nil_iff.mp hmap)
  simp only [hval, hcond]
  rw [pyListMin_eq_minD _ (hmapne _), pyListMax_eq_maxD _ (hmapne _)]
  simp only [specChannelGap, qSub_eq]

/-- C1: on the eigenvalue path, the computed band gap is the minimum over spin
channels of `max(conduction_min - valence_max, 0)`, where per channel the
valence max is the maximum over k-points of the energy at band index
`nelec/2 - 1` and the conduction min is the minimum at index `nelec/2`; in
particular the result is never negative. -/
theorem eigenval_bandgap_min_over_spin_channels
    (recs : List (Option (List (List ℚ)))) (nelec : ℚ) (idx : ℕ)
    (channels : List (List (List ℚ)))
    (hch : pyZip ((recs.filterMap id).map pyZip) = channels)
    (hidx : pyInt (nelec / 2) = (idx : ℤ))
    (h1 : 1 ≤ idx) (hne : channels ≠ [])
    (hchan : ∀ c ∈ channels, c ≠ [] ∧ ∀ r ∈ c, idx < r.length) :
    VaspParser.getBandgapEigenval recs nelec =
      some (minD (channels.map (fun c => specChannelGap c idx))) ∧
    0 ≤ minD (channels.map (fun c => specChannelGap c idx)) := by
  have hall : optionAll (channels.map
      (fun x => VaspParser.getBandgapFromBands x (qDiv nelec 2))) =
      some (channels.map (fun c => specChannelGap c idx)) :=
    optionAll_map_some _ _ _ (fun c hc =>
      getBandgapFromBands_eq c (qDiv nelec 2) idx
        (by rw [qDiv_eq]; exact hidx) h1 (hchan c hc).1 (hchan c hc).2)
  have hmapne : channels.map (fun c => specChannelGap c idx) ≠ [] := by
    intro hmap
    exact hne (List.map_eq_nil_iff.mp hmap)
  constructor
  · unfold VaspParser.getBandgapEigenval
    simp only [hch, hall]
    exact pyListMin_eq_minD _ hmapne
  · have hpos : ∀ x ∈ channels.map (fun c => specChannelGap c idx), 0 ≤ x := by
      intro x hx
      obtain ⟨c, _, rfl⟩ := List.mem_map.mp hx
      exact le_max_right _ 0
    exact pyListMin_nonneg _ hpos _ (pyListMin_eq_minD _ hmapne)

/-- Witness for C1 on a synthetic spin-polarized EIGENVAL: two k-points, two
bands, two spin channels, four electrons in total across both channels
(`nelec = 2` per the OUTCAR convention halved per spin); the spin-up gap is 8,
the spin-down gap is 6, and the result is their minimum. -/
theorem eigenval_bandgap_min_over_spin_channels_witness :
    VaspParser.getBandgapEigenval
      [some [[1, 2], [10, 9]], some [[2, 3], [12, 11]]] 2 = some 6 ∧
    (0 : ℚ) ≤ 6 := by
  have h := eigenval_bandgap_min_over_spin_channels
    [some [[1, 2], [10, 9]], some [[2, 3], [12, 11]]] 2 1
    [[[1, 10], [2, 12]], [[2, 9], [3, 11]]]
    (by decide)
    (by rw [(by norm_num : ((2 : ℚ) / 2) = (1 : ℚ))]; decide)
    (by decide) (by decide) (by decide)
  have hv : minD ([[[1, 10], [2, 12]], [[2, 9], [3, 11]]].map
      (fun c => specChannelGap c 1)) = (6 : ℚ) := by
    simp only [List.map_cons, List.map_nil, specChannelGap, minD, maxD,
      pyListMin, pyListMax, List.getD_cons_succ, List.getD_cons_zero,
      Option.getD_some]
    norm_num
  exact ⟨h.1.trans (by rw [hv]), by norm_num⟩

/-! ## C8: reverse-indexed keying of the Hubbard-U values -/

theorem scanLines_no_match {β : Type u} (p : String → Bool)
    (step : String → β → PyResult β) (lines : List String) (b : β)
    (h : ∀ l ∈ lines, p l = false) :
    VaspParser.scanLines p step lines b = .ok b := by
  induction lines with
  | nil => rfl
  | cons l rest ih =>
    have hl := h l (by simp)
    simp only [VaspParser.scanLines, hl, Bool.false_eq_true, if_false]
    exact ih (fun s hs => h s (List.mem_cons_of_mem _ hs))

theorem scanLines_single {β : Type u} (p : String → Bool)
    (step : String → β → PyResult β) (lines : List String) (l0 : String)
    (b b2 : β) (hf : lines.filter p = [l0]) (hstep : step l0 b = .ok b2) :
    VaspParser.scanLines p step lines b = .ok b2 := by
  induction lines with
  | nil => simp at hf
  | cons l rest ih =>
    by_cases hp : p l = true
    · rw [List.filter_cons_of_pos hp] at hf
      obtain ⟨rfl, hrest⟩ : l = l0 ∧ rest.filter p = [] := by
        constructor
        · exact (List.cons_eq_cons.mp hf).1
        · exact (List.cons_eq_cons.mp hf).2
      simp only [VaspParser.scanLines, hp, if_true, hstep]
      exact scanLines_no_match p step rest b2
        (fun s hs => by
          have := List.filter_eq_nil_iff.mp hrest s hs
          simpa using this)
    · rw [List.filter_cons_of_neg hp] at hf
      simp only [VaspParser.scanLines, hp, if_false]
      exact ih hf

theorem map_upd_id (xs : List (String × VaspParser.UEntry)) (a : String)
    (f : VaspParser.UEntry → VaspParser.UEntry) (h : ∀ q ∈ xs, q.1 ≠ a) :
    xs.map (fun q => if q.1 = a then (q.1, f q.2) else q) = xs := by
  induction xs with
  | nil => rfl
  | cons x xs ih =>
    have hx := h x (by simp)
    simp only [List.map_cons, if_neg hx]
    rw [ih (fun q hq => h q (List.mem_cons_of_mem _ hq))]

theorem map_update_middle (done rest : List (String × VaspParser.UEntry))
    (a : String) (e : VaspParser.UEntry)
    (f : VaspParser.UEntry → VaspParser.UEntry)
    (hd : ∀ q ∈ done, q.1 ≠ a) (hr : ∀ q ∈ rest, q.1 ≠ a) :
    (done ++ (a, e) :: rest).map
      (fun q => if q.1 = a then (q.1, f q.2) else q) =
      done ++ (a, f e) :: rest := by
  rw [List.map_append, List.map_cons, if_pos rfl, map_upd_id done a f hd,
    map_upd_id rest a f hr]

theorem uPassInnerL_fresh (l : String) (pairs : List (ℕ × String))
    (m : List (String × VaspParser.UEntry)) (Lf : ℕ → ℤ)
    (hparse : ∀ q ∈ pairs,
      (pyGet (pySplit l) (-(1 + (q.1 : ℤ)))).bind pyIntParse = some (Lf q.1))
    (hfresh : ∀ q ∈ pairs, ∀ e ∈ m, e.1 ≠ q.2)
    (hnd : (pairs.map Prod.snd).Nodup) :
    VaspParser.uPassInnerL l pairs m =
      .ok (m ++ pairs.map (fun q => (q.2, ⟨Lf q.1, none, none⟩))) := by
  induction pairs generalizing m with
  | nil => simp [VaspParser.uPassInnerL]
  | cons q rest ih =>
    obtain ⟨i, a⟩ := q
    obtain ⟨w, hw, hparseW⟩ := Option.bind_eq_some.mp (hparse (i, a) (by simp))
    simp only [VaspParser.uPassInnerL, hw, hparseW]
    have hany : m.any (fun p => p.1 = a) = false := by
      simp only [List.any_eq_false, decide_eq_true_eq]
      exact fun e he => hfresh (i, a) (by simp) e he
    have hupd : VaspParser.updEntryL m a (Lf i) =
        m ++ [(a, ⟨Lf i, none, none⟩)] := by
      unfold VaspParser.updEntryL
      rw [hany]
      simp
    rw [hupd]
    have hnd2 : (rest.map Prod.snd).Nodup := (List.nodup_cons.mp hnd).2
    have hmem : a ∉ rest.map Prod.snd := (List.nodup_cons.mp hnd).1
    have := ih (m ++ [(a, ⟨Lf i, none, none⟩)])
      (fun q hq => hparse q (List.mem_cons_of_mem _ hq))
      (fun q hq e he => by
        rcases List.mem_append.mp he with he2 | he2
        · exact hfresh q (List.mem_cons_of_mem _ hq) e he2
        · rcases List.mem_singleton.mp he2 with rfl
          intro hc
          have hc2 : a = q.2 := hc
          exact hmem (hc2 ▸ List.mem_map_of_mem Prod.snd hq))
      hnd2
    rw [this, List.append_assoc]
    rfl

theorem uPassInnerU_update (l : String) (pairs : List (ℕ × String))
    (done : List (String × VaspParser.UEntry)) (ent : ℕ → VaspParser.UEntry)
    (Uf : ℕ → ℚ)
    (hparse : ∀ q ∈ pairs,
      (pyGet (pySplit l) (-(1 + (q.1 : ℤ)))).bind pyFloat = some (Uf q.1))
    (hdone : ∀ q ∈ pairs, ∀ e ∈ done, e.1 ≠ q.2)
    (hnd : (pairs.map Prod.snd).Nodup) :
    VaspParser.uPassInnerU l pairs
      (done ++ pairs.map (fun q => (q.2, ent q.1))) =
      .ok (done ++ pairs.map
        (fun q => (q.2, ⟨(ent q.1).L, some (Uf q.1), (ent q.1).J⟩))) := by
  induction pairs generalizing done with
  | nil => simp [VaspParser.uPassInnerU]
  | cons q rest ih =>
    obtain ⟨i, a⟩ := q
    obtain ⟨w, hw, hparseW⟩ := Option.bind_eq_some.mp (hparse (i, a) (by simp))
    simp only [VaspParser.uPassInnerU, hw, hparseW, List.map_cons]
    have hmem : a ∉ rest.map Prod.snd := (List.nodup_cons.mp hnd).1
    have hrkeys : ∀ e ∈ rest.map (fun q => (q.2, ent q.1)), e.1 ≠ a := by
      intro e he hc
      obtain ⟨q2, hq2, rfl⟩ := List.mem_map.mp he
      exact hmem (hc ▸ List.mem_map_of_mem Prod.snd hq2)
    have hdkeys : ∀ e ∈ done, e.1 ≠ a :=
      fun e he => hdone (i, a) (by simp) e he
    have hany : (done ++ (a, ent i) :: rest.map
        (fun q => (q.2, ent q.1))).any (fun p => p.1 = a) = true := by
      simp only [List.any_eq_true, decide_eq_true_eq]
      exact ⟨(a, ent i), by simp, rfl⟩
    have hupd : VaspParser.updEntryU
        (done ++ (a, ent i) :: rest.map (fun q => (q.2, ent q.1))) a (Uf i) =
        .ok (done ++ (a, ⟨(ent i).L, some (Uf i), (ent i).J⟩) ::
          rest.map (fun q => (q.2, ent q.1))) := by
      unfold VaspParser.updEntryU
      rw [hany]
      simp only [if_true]
      rw [map_update_middle done _ a (ent i)
        (fun e => ⟨e.L, some (Uf i), e.J⟩) hdkeys hrkeys]
    simp only [hupd]
    have hnd2 : (rest.map Prod.snd).Nodup := (List.nodup_cons.mp hnd).2
    have := ih (done ++ [(a, ⟨(ent i).L, some (Uf i), (ent i).J⟩)])
      (fun q hq => hparse q (List.mem_cons_of_mem _ hq))
      (fun q hq e he => by
        rcases List.mem_append.mp he with he2 | he2
        · exact hdone q (List.mem_cons_of_mem _ hq) e he2
        · rcases List.mem_singleton.mp he2 with rfl
          intro hc
          have hc2 : a = q.2 := hc
          exact hmem (hc2 ▸ List.mem_map_of_mem Prod.snd hq))
      hnd2
    rw [List.append_assoc] at this
    simp only [List.cons_append, List.nil_append] at this
    rw [this, List.append_assoc]
    rfl

theorem uPassInnerJ_update (l : String) (pairs : List (ℕ × String))
    (done : List (String × VaspParser.UEntry)) (ent : ℕ → VaspParser.UEntry)
    (Jf : ℕ → ℚ)
    (hparse : ∀ q ∈ pairs,
      (pyGet (pySplit l) (-(1 + (q.1 : ℤ)))).bind pyFloat = some (Jf q.1))
    (hdone : ∀ q ∈ pairs, ∀ e ∈ done, e.1 ≠ q.2)
    (hnd : (pairs.map Prod.snd).Nodup) :
    VaspParser.uPassInnerJ l pairs
      (done ++ pairs.map (fun q => (q.2, ent q.1))) =
      .ok (done ++ pairs.map
        (fun q => (q.2, ⟨(ent q.1).L, (ent q.1).U, some (Jf q.1)⟩))) := by
  induction pairs generalizing done with
  | nil => simp [VaspParser.uPassInnerJ]
  | cons q rest ih =>
    obtain ⟨i, a⟩ := q
    obtain ⟨w, hw, hparseW⟩ := Option.bind_eq_some.mp (hparse (i, a) (by simp))
    simp only [VaspParser.uPassInnerJ, hw, hparseW, List.map_cons]
    have hmem : a ∉ rest.map Prod.snd := (List.nodup_cons.mp hnd).1
    have hrkeys : ∀ e ∈ rest.map (fun q => (q.2, ent q.1)), e.1 ≠ a := by
      intro e he hc
      obtain ⟨q2, hq2, rfl⟩ := List.mem_map.mp he
      exact hmem (hc ▸ List.mem_map_of_mem Prod.snd hq2)
    have hdkeys : ∀ e ∈ done, e.1 ≠ a :=
      fun e he => hdone (i, a) (by simp) e he
    have hany : (done ++ (a, ent i) :: rest.map
        (fun q => (q.2, ent q.1))).any (fun p => p.1 = a) = true := by
      simp only [List.any_eq_true, decide_eq_true_eq]
      exact ⟨(a, ent i), by simp, rfl⟩
    have hupd : VaspParser.updEntryJ
        (done ++ (a, ent i) :: rest.map (fun q => (q.2, ent q.1))) a (Jf i) =
        .ok (done ++ (a, ⟨(ent i).L, (ent i).U, some (Jf i)⟩) ::
          rest.map (fun q => (q.2, ent q.1))) := by
      unfold VaspParser.updEntryJ
      rw [hany]
      simp only [if_true]
      rw [map_update_middle done _ a (ent i)
        (fun e => ⟨e.L, e.U, some (Jf i)⟩) hdkeys hrkeys]
    simp only [hupd]
    have hnd2 : (rest.map Prod.snd).Nodup := (List.nodup_cons.mp hnd).2
    have := ih (done ++ [(a, ⟨(ent i).L, (ent i).U, some (Jf i)⟩)])
      (fun q hq => hparse q (List.mem_cons_of_mem _ hq))
      (fun q hq e he => by
        rcases List.mem_append.mp he with he2 | he2
        · exact hdone q (List.mem_cons_of_mem _ hq) e he2
        · rcases List.mem_singleton.mp he2 with rfl
          intro hc
          have hc2 : a = q.2 := hc
          exact hmem (hc2 ▸ List.mem_map_of_mem Prod.snd hq))
      hnd2
    rw [List.append_assoc] at this
    simp only [List.cons_append, List.nil_append] at this
    rw [this, List.append_assoc]
    rfl

/-- C8: when the OUTCAR mentions LDAU, `get_U_settings` keys the per-species
L, U and J values by reverse-indexed offsets: the species at index `i` of the
reversed TITEL-label list receives the token at position `-1-i` of the LDAUL,
LDAUU and LDAUJ lines; when LDAU is absent the property is not applicable. -/
theorem get_U_settings_reverse_indexed (lines : List String)
    (labels : List String) (ty : Option ℤ) (lL lU lJ : String)
    (Lf : ℕ → ℤ) (Uf Jf : ℕ → ℚ) :
    ((lines.any (fun l => pyContains l "LDAU")) = false →
      VaspParser.get_U_settings lines = .ok none) ∧
    ((lines.any (fun l => pyContains l "LDAU")) = true →
     VaspParser.uPass1 lines ([], none) = .ok (labels, ty) →
     labels.reverse.Nodup →
     lines.filter (fun l => pyContains l "LDAUL") = [lL] →
     lines.filter (fun l => pyContains l "LDAUU") = [lU] →
     lines.filter (fun l => pyContains l "LDAUJ") = [lJ] →
     (∀ q ∈ labels.reverse.enum,
       (pyGet (pySplit lL) (-(1 + (q.1 : ℤ)))).bind pyIntParse = some (Lf q.1)) →
     (∀ q ∈ labels.reverse.enum,
       (pyGet (pySplit lU) (-(1 + (q.1 : ℤ)))).bind pyFloat = some (Uf q.1)) →
     (∀ q ∈ labels.reverse.enum,
       (pyGet (pySplit lJ) (-(1 + (q.1 : ℤ)))).bind pyFloat = some (Jf q.1)) →
     VaspParser.get_U_settings lines = .ok (some ⟨ty,
       labels.reverse.enum.map
         (fun q => (q.2, ⟨Lf q.1, some (Uf q.1), some (Jf q.1)⟩))⟩)) := by
  constructor
  · intro h
    unfold VaspParser.get_U_settings
    rw [h]
    simp
  · intro hany h1 hnd hfL hfU hfJ hpL hpU hpJ
    have hndA : (labels.reverse.enum.map Prod.snd).Nodup := by
      have he : labels.reverse.enum.map Prod.snd = labels.reverse :=
        List.enumFrom_map_snd 0 labels.reverse
      rw [he]
      exact hnd
    unfold VaspParser.get_U_settings
    rw [hany]
    simp only [if_true, h1]
    have hm1 : VaspParser.scanLines (fun l => pyContains l "LDAUL")
        (fun l m => VaspParser.uPassInnerL l labels.reverse.enum m) lines [] =
        .ok (labels.reverse.enum.map
          (fun q => (q.2, (⟨Lf q.1, none, none⟩ : VaspParser.UEntry)))) := by
      refine scanLines_single _ _ lines lL _ _ hfL ?_
      simpa using uPassInnerL_fresh lL labels.reverse.enum [] Lf hpL
        (by simp) hndA
    simp only [hm1]
    have hm2 : VaspParser.scanLines (fun l => pyContains l "LDAUU")
        (fun l m => VaspParser.uPassInnerU l labels.reverse.enum m) lines
        (labels.reverse.enum.map
          (fun q => (q.2, (⟨Lf q.1, none, none⟩ : VaspParser.UEntry)))) =
        .ok (labels.reverse.enum.map
          (fun q => (q.2,
            (⟨Lf q.1, some (Uf q.1), none⟩ : VaspParser.UEntry)))) := by
      refine scanLines_single _ _ lines lU _ _ hfU ?_
      have h := uPassInnerU_update lU labels.reverse.enum []
        (fun i => (⟨Lf i, none, none⟩ : VaspParser.UEntry)) Uf hpU
        (by simp) hndA
      simpa using h
    simp only [hm2]
    have hm3 : VaspParser.scanLines (fun l => pyContains l "LDAUJ")
        (fun l m => VaspParser.uPassInnerJ l labels.reverse.enum m) lines
        (labels.reverse.enum.map
          (fun q => (q.2,
            (⟨Lf q.1, some (Uf q.1), none⟩ : VaspParser.UEntry)))) =
        .ok (labels.reverse.enum.map
          (fun q => (q.2, (⟨Lf q.1, some (Uf q.1),
            some (Jf q.1)⟩ : VaspParser.UEntry)))) := by
      refine scanLines_single _ _ lines lJ _ _ hfJ ?_
      have h := uPassInnerJ_update lJ labels.reverse.enum []
        (fun i => (⟨Lf i, some (Uf i), none⟩ : VaspParser.UEntry)) Jf hpJ
        (by simp) hndA
      simpa using h
    simp only [hm3]

/-- Witness for C8 on a synthetic two-species OUTCAR (labels Fe then O, so the
reversed list is O then Fe): O receives the last token of each line, Fe the
one before it; and a file without LDAU yields no value. -/
theorem get_U_settings_reverse_indexed_witness :
    VaspParser.get_U_settings ["ENCUT  =  400.0 eV"] = .ok none ∧
    VaspParser.get_U_settings
      [" TITEL  = PAW_PBE Fe 06Sep2000",
       " TITEL  = PAW_PBE O 08Apr2002",
       " LDAUTYPE =  2",
       " LDAUL  =    2   -1",
       " LDAUU  =  4.0  0.0",
       " LDAUJ  =  1.0  0.0"] =
      .ok (some ⟨some 2,
        [("O", ⟨-1, some 0, some 0⟩), ("Fe", ⟨2, some 4, some 1⟩)]⟩) := by
  constructor
  · exact (get_U_settings_reverse_indexed ["ENCUT  =  400.0 eV"] [] none
      "" "" "" (fun _ => 0) (fun _ => 0) (fun _ => 0)).1 (by decide)
  · exact ((get_U_settings_reverse_indexed
      [" TITEL  = PAW_PBE Fe 06Sep2000",
       " TITEL  = PAW_PBE O 08Apr2002",
       " LDAUTYPE =  2",
       " LDAUL  =    2   -1",
       " LDAUU  =  4.0  0.0",
       " LDAUJ  =  1.0  0.0"]
      ["Fe", "O"] (some 2)
      " LDAUL  =    2   -1" " LDAUU  =  4.0  0.0" " LDAUJ  =  1.0  0.0"
      (fun i => if i = 0 then -1 else 2)
      (fun i => if i = 0 then 0 else 4)
      (fun i => if i = 0 then 0 else 1)).2
      (by decide) (by decide) (by decide) (by decide) (by decide) (by decide)
      (by decide) (by decide) (by decide)).trans (by decide)
